import Mathlib

/-!
Verification of the growth-rate-warming-rate sandbox repository.

The development shallowly embeds the two computational components:

* `read_figure_data` (src/read_data.py): a line-oriented parser that fills a
  fixed 4×6×5 table from a tab-delimited text file.  Python strings are
  embedded as `List Char`; the numeric field decoder (`float`) is an abstract
  parameter `pf : PyStr → Option α` so theorems hold for every decoder; a
  concrete decimal decoder `parseDec` into `ℚ` instantiates it in witnesses.
  Numpy's negative-index wrap-around and out-of-range `IndexError` are
  modelled explicitly (`npIdx4`), and `float`-conversion failure is the
  `decodeError` outcome.
* `compute_growth_rates` (src/read_data.py) over `ℝ` with real powers.
* the numeric core of `create_panel_plot` (src/plot_panels.py): slicing and
  percent conversion, least-squares line fits, the greedy label de-overlap
  pass, and the drawing commands, threaded through an explicit plot state so
  that (absence of) mutation of the input table is expressible.
-/
/-- Python strings, embedded as their character sequences. -/
abbrev PyStr := List Char

/-- Characters removed by Python's default `str.strip()` (ASCII fragment). -/
def isPySpace (c : Char) : Bool :=
  c = ' ' || c = '\t' || c = '\n' || c = '\r' || c = '\x0b' || c = '\x0c'

/-- Python `line.strip()`: drop whitespace from both ends. -/
def pstrip (s : PyStr) : PyStr :=
  ((s.dropWhile isPySpace).reverse.dropWhile isPySpace).reverse

/-- Python `line.split('\t')`: split on every tab, keeping empty fields.
The result is always nonempty, as in Python. -/
def psplitTab : PyStr → List PyStr
  | [] => [[]]
  | c :: cs =>
    match psplitTab cs with
    | [] => [[]]
    | r :: rs => if c = '\t' then [] :: r :: rs else (c :: r) :: rs

/-- Convert a Lean string literal to the embedded representation. -/
def pstr (s : String) : PyStr := s.toList

/-- `TABLE_NAMES` from src/read_data.py. -/
def TABLE_NAMES : List PyStr :=
  [pstr "All-country average", pstr "High-income group",
   pstr "Middle-income group", pstr "Low-income group"]

/-- `ROW_LABELS` from src/read_data.py. -/
def ROW_LABELS : List PyStr :=
  [pstr "No growth", pstr "SSP1", pstr "SSP2", pstr "SSP3", pstr "SSP4", pstr "SSP5"]

/-- `COL_LABELS` from src/read_data.py. -/
def COL_LABELS : List PyStr :=
  [pstr "No warming", pstr "2.6 W m-2", pstr "4.5 W m-2",
   pstr "7.0 W m-2", pstr "8.5 W m-2"]

/-- A 4×6×5 table is a nested list; shape is a provable property, not a type
index, mirroring a numpy array whose shape is a runtime fact. -/
abbrev Table (α : Type) := List (List (List α))

/-- `np.zeros((4, 6, 5))`, with an explicit zero element. -/
def zeros465 {α : Type} (z : α) : Table α :=
  List.replicate 4 (List.replicate 6 (List.replicate 5 z))

/-- numpy indexing of axis 0 of a shape-(4,…) array: indices 0..3 are used
directly, -4..-1 wrap around, anything else raises `IndexError`. -/
def npIdx4 (i : Int) : Option Nat :=
  if 0 ≤ i ∧ i < 4 then some i.toNat
  else if -4 ≤ i ∧ i < 0 then some (i + 4).toNat
  else none

/-- `data[t, r, :] = vs`: replace row `r` of layer `t` by `vs`. -/
def setRow {α : Type} (d : Table α) (t r : Nat) (vs : List α) : Table α :=
  d.set t ((d.getD t []).set r vs)

/-- Read a cell `d[i][j][k]` with default `z` out of range. -/
def cell {α : Type} (z : α) (d : Table α) (i j k : Nat) : α :=
  ((d.getD i []).getD j []).getD k z

/-- The outcome of a failed parse: a `float` conversion error
(Python `ValueError`) or a numpy out-of-range `IndexError`. -/
inductive ParseError : Type
  | decodeError
  | indexError
  deriving DecidableEq

/-- Mutable scan state of `read_figure_data`: the section counter
`table_idx` (an `Int`, starting at `-1`), the row cursor `row_idx`,
and the accumulating array `data`. -/
structure RState (α : Type) : Type where
  tableIdx : Int
  rowIdx : Nat
  data : Table α
  deriving DecidableEq

/-- The value fields of a data row: `parts[1:6]`. -/
def rowFieldsOf (parts : List PyStr) : List PyStr := (parts.drop 1).take 5

/-- `[float(v) for v in fields]` with an abstract field decoder:
`none` as soon as one field fails to decode. -/
def mapOpt {α : Type} (pf : PyStr → Option α) : List PyStr → Option (List α)
  | [] => some []
  | s :: ss =>
    match pf s, mapOpt pf ss with
    | some v, some vs => some (v :: vs)
    | _, _ => none

/-- The body of the `for line in lines` loop of `read_figure_data`, applied
to the already-stripped line.  Branches appear in source order: blank line,
table-name header, column-header skip, recognized data row (decode the five
value fields, then write through the numpy index), anything else ignored. -/
def processStripped {α : Type} (pf : PyStr → Option α) (st : RState α)
    (line : PyStr) : Except ParseError (RState α) :=
  if line = [] then .ok st
  else if line ∈ TABLE_NAMES then .ok ⟨st.tableIdx + 1, 0, st.data⟩
  else if (pstr "No warming").isPrefixOf line || [('\t' : Char)].isPrefixOf line then
    .ok st
  else
    let parts := psplitTab line
    if 6 ≤ parts.length ∧ parts.headD [] ∈ ROW_LABELS then
      match mapOpt pf (rowFieldsOf parts) with
      | none => .error .decodeError
      | some vs =>
        match npIdx4 st.tableIdx with
        | none => .error .indexError
        | some t =>
          .ok ⟨st.tableIdx, ROW_LABELS.indexOf (parts.headD []),
               setRow st.data t (ROW_LABELS.indexOf (parts.headD [])) vs⟩
    else .ok st

/-- One loop iteration of `read_figure_data`: `line = line.strip()` then the
branch chain. -/
def processLine {α : Type} (pf : PyStr → Option α) (st : RState α)
    (raw : PyStr) : Except ParseError (RState α) :=
  processStripped pf st (pstrip raw)

/-- The scan loop over all lines, propagating the first raised error. -/
def runLines {α : Type} (pf : PyStr → Option α) (st : RState α) :
    List PyStr → Except ParseError (RState α)
  | [] => .ok st
  | l :: ls =>
    match processLine pf st l with
    | .error e => .error e
    | .ok st' => runLines pf st' ls

/-- `read_figure_data`, on the list of lines of the file: scan from
`table_idx = -1`, `row_idx = 0`, a zero array, and return the array. -/
def readFigureData {α : Type} (pf : PyStr → Option α) (z : α)
    (lines : List PyStr) : Except ParseError (Table α) :=
  (runLines pf ⟨-1, 0, zeros465 z⟩ lines).map (fun st => st.data)

instance {ε α : Type} [DecidableEq ε] [DecidableEq α] :
    DecidableEq (Except ε α) := fun a b => by
  cases a <;> cases b
  case error.error e f =>
    exact decidable_of_iff (e = f) (by simp)
  case error.ok e v => exact isFalse (by simp)
  case ok.error v e => exact isFalse (by simp)
  case ok.ok v w =>
    exact decidable_of_iff (v = w) (by simp)

/-- Classification of a line by the branch of `processStripped` it takes;
`goodRow`/`badRow` split recognized data rows by whether all five value
fields decode. -/
inductive LineKind : Type
  | blank
  | header
  | colHeader
  | goodRow
  | badRow
  | other
  deriving DecidableEq

/-- The branch of `processStripped` taken by a raw line. -/
def classifyLine {α : Type} (pf : PyStr → Option α) (raw : PyStr) : LineKind :=
  let line := pstrip raw
  if line = [] then .blank
  else if line ∈ TABLE_NAMES then .header
  else if (pstr "No warming").isPrefixOf line || [('\t' : Char)].isPrefixOf line then
    .colHeader
  else
    let parts := psplitTab line
    if 6 ≤ parts.length ∧ parts.headD [] ∈ ROW_LABELS then
      match mapOpt pf (rowFieldsOf parts) with
      | none => .badRow
      | some _ => .goodRow
    else .other

/-- The label field of a (recognized) data row. -/
def rowLabelOf (raw : PyStr) : PyStr := (psplitTab (pstrip raw)).headD []

/-- The destination row index of a (recognized) data row:
`ROW_LABELS.index(parts[0])`. -/
def rowIdxOf (raw : PyStr) : Nat := ROW_LABELS.indexOf (rowLabelOf raw)

/-- The decoded value fields of a (recognized) data row. -/
def rowValsOf {α : Type} (pf : PyStr → Option α) (raw : PyStr) : Option (List α) :=
  mapOpt pf (rowFieldsOf (psplitTab (pstrip raw)))

/-- Unsigned integer field decoder used to instantiate the abstract decoder
in concrete computations: a nonempty digit string. -/
def parseUInt (s : PyStr) : Option ℤ :=
  if s ≠ [] ∧ s.all Char.isDigit then
    some ((s.foldl (fun a c => 10 * a + (c.toNat - 48)) 0 : Nat) : ℤ)
  else none

/-- Signed integer field decoder (a fragment of Python `float`). -/
def parseInt (s : PyStr) : Option ℤ :=
  match s with
  | '-' :: t => (parseUInt t).map (fun q => -q)
  | '+' :: t => parseUInt t
  | _ => parseUInt s

/-- Lines on which the loop body leaves the state untouched. -/
def isNeutralLine {α : Type} (pf : PyStr → Option α) (raw : PyStr) : Bool :=
  match classifyLine pf raw with
  | .blank | .colHeader | .other => true
  | _ => false

/-- The externally observable part of a scan outcome: the section counter
and the array.  The row cursor `row_idx` is write-only in the source (it is
always reassigned before use), so it is dropped here. -/
def observe {α : Type} (r : Except ParseError (RState α)) :
    Except ParseError (Int × Table α) :=
  r.map (fun st => (st.tableIdx, st.data))

/-- Input files related by reordering recognized data rows inside a group
section.  `swapRows` exchanges two adjacent recognized data rows carrying
distinct row labels; `swapNeutral` moves a recognized data row (or any
line) across a line that the scan ignores; `cons`, `symm` and `trans`
close these under context, symmetry and composition.  A group-header line
is never moved, so rows cannot cross section boundaries. -/
inductive RowPerm {α : Type} (pf : PyStr → Option α) :
    List PyStr → List PyStr → Prop
  | nil : RowPerm pf [] []
  | cons (x : PyStr) {l₁ l₂ : List PyStr} :
      RowPerm pf l₁ l₂ → RowPerm pf (x :: l₁) (x :: l₂)
  | swapRows (x y : PyStr) {l : List PyStr} :
      classifyLine pf x = .goodRow → classifyLine pf y = .goodRow →
      rowIdxOf x ≠ rowIdxOf y →
      RowPerm pf (y :: x :: l) (x :: y :: l)
  | swapNeutral (x y : PyStr) {l : List PyStr} :
      isNeutralLine pf y = true →
      RowPerm pf (y :: x :: l) (x :: y :: l)
  | symm {l₁ l₂ : List PyStr} : RowPerm pf l₁ l₂ → RowPerm pf l₂ l₁
  | trans {l₁ l₂ l₃ : List PyStr} :
      RowPerm pf l₁ l₂ → RowPerm pf l₂ l₃ → RowPerm pf l₁ l₃

/-- A line whose stripped content is exactly one of the four group names. -/
def isHeaderLine (raw : PyStr) : Bool := decide (pstrip raw ∈ TABLE_NAMES)

/-- Number of group-header lines of a file. -/
def countHeaders (lines : List PyStr) : Nat := lines.countP isHeaderLine

/-- The (4, 6, 5) shape property of a nested-list table. -/
def Shape465 {α : Type} (d : Table α) : Prop :=
  d.length = 4 ∧ ∀ layer ∈ d, layer.length = 6 ∧ ∀ r ∈ layer, r.length = 5

instance {α : Type} (d : Table α) : Decidable (Shape465 d) := by
  unfold Shape465; infer_instance

/-- `compute_growth_rates` from src/read_data.py.  Per income-group layer:
baseline is the `[0, 0]` element, every value is divided by it, raised to
the power `1.0 / years` (the power operation `rp` is a parameter; the
theorems instantiate it with `Real.rpow`), and `1.0` is subtracted.
`years` defaults to `80` as in the source. -/
def computeGrowthRates {α : Type} [DivisionRing α] (rp : α → α → α)
    (data : Table α) (years : Nat := 80) : Table α :=
  data.map (fun layer =>
    let baseline := (layer.getD 0 []).getD 0 0
    layer.map (fun row => row.map (fun v => rp (v / baseline) (1 / (years : α)) - 1)))

/-- `SSP_NAMES` from src/plot_panels.py. -/
def SSP_NAMES : List String := ["SSP1", "SSP2", "SSP3", "SSP4", "SSP5"]

/-- `SSP_VALUES` from src/plot_panels.py (decimal literals as rationals). -/
def SSP_VALUES {α : Type} [DivisionRing α] : List α :=
  [2, 162 / 100, 34 / 100, 115 / 100, 273 / 100]

/-- `SSP_COLORS` values, aligned with `SSP_NAMES`. -/
def SSP_COLORS : List String :=
  ["tab:blue", "tab:orange", "tab:green", "tab:red", "tab:purple"]

/-- The strings `f'{baseline_rate:.2f}'` produced for the five SSP values. -/
def SSP_VALUE_LABELS : List String := ["2.00", "1.62", "0.34", "1.15", "2.73"]

/-- `WARMING_VALUES` from src/plot_panels.py. -/
def WARMING_VALUES {α : Type} [DivisionRing α] : List α :=
  [87 / 100, 227 / 100, 396 / 100, 51 / 10]

/-- `WARMING_MARKERS` values, aligned with the four warming scenarios. -/
def WARMING_MARKERS : List String := ["o", "s", "^", "D"]

/-- The strings `f'{WARMING_VALUES[i]:.2f}'`. -/
def WARMING_VALUE_LABELS : List String := ["0.87", "2.27", "3.96", "5.10"]

/-- `RCP_NAMES` from src/plot_panels.py. -/
def RCP_NAMES : List String := ["RCP2.6", "RCP4.5", "RCP7.0", "RCP8.5"]

/-- `LOW_INCOME_IDX` from src/plot_panels.py. -/
def LOW_INCOME_IDX : Nat := 3

/-- `HIGH_INCOME_IDX` from src/plot_panels.py. -/
def HIGH_INCOME_IDX : Nat := 1

/-- The `label_style` argument of `create_panel_plot`. -/
inductive LabelStyle : Type
  | numerical
  | scenario
  deriving DecidableEq

/-- `np.polyfit(x, y, 1)`: degree-one least squares, in closed form. -/
def polyfit1 {α : Type} [Field α] (xs ys : List α) : α × α :=
  let n : α := (xs.length : α)
  let sx := xs.sum
  let sy := ys.sum
  let sxx := (xs.map (fun x => x * x)).sum
  let sxy := (List.zipWith (fun x y => x * y) xs ys).sum
  let slope := (n * sxy - sx * sy) / (n * sxx - sx * sx)
  (slope, (sy - slope * sx) / n)

/-- One drawing call issued against an axes object. -/
inductive DrawCmd (α : Type) : Type
  | lineSeg (x1 y1 x2 y2 : α) (color : String)
  | scatter (x y : α) (color marker : String)
  | highlight (x y : α)
  | text (x y : α) (s color : String)
  | hline (y : α)
  deriving DecidableEq

/-- The state visible to `create_panel_plot`: its input array and the
drawing calls issued so far.  A mutation of the input would show up as a
change of the `growthRates` component. -/
structure PlotState (α : Type) : Type where
  growthRates : Table α
  canvas : List (DrawCmd α)

/-- Issue one drawing call. -/
def draw {α : Type} (c : DrawCmd α) (s : PlotState α) : PlotState α :=
  { s with canvas := s.canvas ++ [c] }

/-- Issue a sequence of drawing calls. -/
def drawAll {α : Type} (cs : List (DrawCmd α)) (s : PlotState α) : PlotState α :=
  cs.foldl (fun s c => draw c s) s

/-- `growth_rates[:, 1:6, 1:5] * 100`: drop the `No growth` row and the
`No warming` column of every layer and convert to percent.  numpy `*`
allocates, so this is a fresh table. -/
def dataSubset {α : Type} [Ring α] (g : Table α) : Table α :=
  g.map (fun layer =>
    ((layer.drop 1).take 5).map (fun row =>
      ((row.drop 1).take 4).map (fun v => v * 100)))

/-- The greedy de-overlap pass of `create_panel_plot`, after the first
label: each position is pushed up to `prev + 0.25` when it comes closer
than `0.25` to the previous adjusted position. -/
def adjustFrom {α : Type} [LinearOrderedField α] (prev : α) : List α → List α
  | [] => []
  | y :: ys =>
    let y2 := if y - prev < 1 / 4 then prev + 1 / 4 else y
    y2 :: adjustFrom y2 ys

/-- `positions.sort()` followed by the greedy minimum-spacing adjustment
(the first position is kept as is, as in the source where the `i > 0`
guard skips the first element). -/
def adjustPositions {α : Type} [LinearOrderedField α] (ys : List α) : List α :=
  match List.insertionSort (· ≤ ·) ys with
  | [] => []
  | y :: rest => y :: adjustFrom y rest

/-- Stable insertion of a labelled position, ordered by position
(`sort(key=lambda x: x[0])`). -/
def insertByFst {α β : Type} [LinearOrder α] (p : α × β) :
    List (α × β) → List (α × β)
  | [] => [p]
  | q :: qs => if p.1 ≤ q.1 then p :: q :: qs else q :: insertByFst p qs

/-- Sort labelled positions by position. -/
def sortByFst {α β : Type} [LinearOrder α] : List (α × β) → List (α × β)
  | [] => []
  | p :: ps => insertByFst p (sortByFst ps)

/-- Python `max` over a list (with a default for the empty list). -/
def pymax {α : Type} [LinearOrder α] (l : List α) (d : α) : α :=
  l.foldl max (l.headD d)

/-- The drawing calls of one top-row panel (warming rate against growth
rate) for income-group layer `inc` of the percent subset `ds`: per SSP a
fit line over `[0, 6]` and four markers, then the de-overlapped end-of-line
labels, the `%/yr` header for the numerical style, the SSP2/RCP4.5
highlight and the zero line. -/
def topPanelCmds {α : Type} [LinearOrderedField α] (ds : Table α)
    (inc : Nat) (style : LabelStyle) : List (DrawCmd α) :=
  let xmax : α := 6
  let sspCmds := (List.range 5).flatMap (fun s =>
    let ys := (ds.getD inc []).getD s []
    let fit := polyfit1 WARMING_VALUES ys
    DrawCmd.lineSeg 0 fit.2 xmax (fit.1 * xmax + fit.2) (SSP_COLORS.getD s "") ::
      (List.range 4).map (fun w =>
        DrawCmd.scatter (WARMING_VALUES.getD w 0) (ys.getD w 0)
          (SSP_COLORS.getD s "") (WARMING_MARKERS.getD w "")))
  let labelTuples : List (α × String × String) := (List.range 5).map (fun s =>
    let ys := (ds.getD inc []).getD s []
    let fit := polyfit1 WARMING_VALUES ys
    let txt := match style with
      | .scenario => SSP_NAMES.getD s ""
      | .numerical => SSP_VALUE_LABELS.getD s ""
    (fit.1 * xmax + fit.2, txt, SSP_COLORS.getD s ""))
  let sorted := sortByFst labelTuples
  let adj := match sorted with
    | [] => []
    | p :: rest => p.1 :: adjustFrom p.1 (rest.map Prod.fst)
  let labelCmds := List.zipWith
    (fun (pr : α × String × String) (y : α) =>
      DrawCmd.text (xmax + 1 / 10) y pr.2.1 pr.2.2) sorted adj
  let headerCmds := match style with
    | .numerical => [DrawCmd.text (xmax + 1 / 10) (11 / 2 - 3 / 20) "%/yr" "black"]
    | .scenario => []
  let hl := DrawCmd.highlight (WARMING_VALUES.getD 1 0)
    (((ds.getD inc []).getD 1 []).getD 1 0)
  sspCmds ++ labelCmds ++ headerCmds ++ [hl, DrawCmd.hline 0]

/-- The drawing calls of one bottom-row panel (baseline growth rate
against growth rate): per warming level a grey fit line over `[0, 3]`,
the scatter of all twenty points, the highlight, the de-overlapped
labels and, for the numerical style, the `°C/century` header above the
highest label. -/
def bottomPanelCmds {α : Type} [LinearOrderedField α] (ds : Table α)
    (inc : Nat) (style : LabelStyle) : List (DrawCmd α) :=
  let xmax : α := 3
  let fits := (List.range 4).map (fun w =>
    let ys := (List.range 5).map (fun s => ((ds.getD inc []).getD s []).getD w 0)
    polyfit1 SSP_VALUES ys)
  let fitCmds := fits.map (fun fit =>
    DrawCmd.lineSeg 0 fit.2 xmax (fit.1 * xmax + fit.2) "lightgray")
  let labelTuples : List (α × String) :=
    (List.zipWith (fun (fit : α × α) (w : Nat) =>
      let txt := match style with
        | .scenario => RCP_NAMES.getD w ""
        | .numerical => WARMING_VALUE_LABELS.getD w ""
      (fit.1 * xmax + fit.2, txt)) fits (List.range 4))
  let scatterCmds := (List.range 5).flatMap (fun s =>
    (List.range 4).map (fun w =>
      DrawCmd.scatter (SSP_VALUES.getD s 0) (((ds.getD inc []).getD s []).getD w 0)
        (SSP_COLORS.getD s "") (WARMING_MARKERS.getD w "")))
  let hl := DrawCmd.highlight (SSP_VALUES.getD 1 0)
    (((ds.getD inc []).getD 1 []).getD 1 0)
  let sorted := sortByFst labelTuples
  let adj := match sorted with
    | [] => []
    | p :: rest => p.1 :: adjustFrom p.1 (rest.map Prod.fst)
  let labelCmds := List.zipWith
    (fun (pr : α × String) (y : α) =>
      DrawCmd.text (xmax + 1 / 20) y pr.2 "black") sorted adj
  let headerCmds := match style with
    | .numerical =>
      [DrawCmd.text (xmax + 1 / 20) (pymax adj 0 + 7 / 20) "°C/century" "black"]
    | .scenario => []
  fitCmds ++ scatterCmds ++ [hl] ++ labelCmds ++ headerCmds ++ [DrawCmd.hline 0]

/-- `create_panel_plot` from src/plot_panels.py, reduced to its data flow:
compute the percent subset (a fresh array), then issue the drawing calls
of the four panels — left column the Low-income layer, right column the
High-income layer — against the plot state carrying the input array. -/
def createPanelPlot {α : Type} [LinearOrderedField α] (g : Table α)
    (style : LabelStyle) : PlotState α :=
  let ds := dataSubset g
  let cmds := [LOW_INCOME_IDX, HIGH_INCOME_IDX].flatMap (fun inc =>
    topPanelCmds ds inc style ++ bottomPanelCmds ds inc style)
  drawAll cmds { growthRates := g, canvas := [] }

/-- A file with five group-header lines: the sixth line is written with
`table_idx = 4`, out of range. -/
def fileC2 : List PyStr :=
  [pstr "All-country average", pstr "All-country average", pstr "All-country average",
   pstr "All-country average", pstr "All-country average",
   pstr "No growth\t1\t1\t1\t1\t1", pstr "No growth\tx\t1\t1\t1\t1"]

/-- A well-formed header plus one good and one undecodable data row. -/
def fileC2W : List PyStr :=
  [pstr "All-country average", pstr "No growth\t1\t1\t1\t1\t1",
   pstr "No growth\tx\t1\t1\t1\t1"]

/-- A group header followed by a data row prefixed with a tab character. -/
def fileC3 : List PyStr :=
  [pstr "All-country average", pstr "\tNo growth\t1\t2\t3\t4\t5"]

/-- Two files that differ by swapping two adjacent well-formed data rows
carrying the same label `No growth` inside the same group section. -/
def fileC6a : List PyStr :=
  [pstr "All-country average", pstr "No growth\t1\t1\t1\t1\t1",
   pstr "No growth\t2\t2\t2\t2\t2"]

/-- `fileC6a` with the two duplicate-label rows swapped. -/
def fileC6b : List PyStr :=
  [pstr "All-country average", pstr "No growth\t2\t2\t2\t2\t2",
   pstr "No growth\t1\t1\t1\t1\t1"]

/-- Two files that differ by swapping two adjacent well-formed data rows
with distinct labels inside the same group section. -/
def fileC6w1 : List PyStr :=
  [pstr "All-country average", pstr "SSP1\t1\t2\t3\t4\t5",
   pstr "SSP2\t6\t7\t8\t9\t10"]

/-- `fileC6w1` with the two distinct-label rows swapped. -/
def fileC6w2 : List PyStr :=
  [pstr "All-country average", pstr "SSP2\t6\t7\t8\t9\t10",
   pstr "SSP1\t1\t2\t3\t4\t5"]

/-- A single header and one data row. -/
def fileC7 : List PyStr :=
  [pstr "All-country average", pstr "No growth\t1\t2\t3\t4\t5"]

/-- The table parsed from `fileC7`. -/
def tableC7 : Table ℤ := setRow (zeros465 0) 0 0 [1, 2, 3, 4, 5]

/-- A file whose recognized data row precedes every group header. -/
def fileC10 : List PyStr :=
  [pstr "", pstr "garbage line", pstr "No growth\t1\t2\t3\t4\t5"]

theorem processLine_eq_dispatch {α : Type} (pf : PyStr → Option α)
    (st : RState α) (raw : PyStr) :
    processLine pf st raw =
      match classifyLine pf raw with
      | .blank => .ok st
      | .header => .ok ⟨st.tableIdx + 1, 0, st.data⟩
      | .colHeader => .ok st
      | .goodRow =>
        match rowValsOf pf raw with
        | none => .error .decodeError
        | some vs =>
          match npIdx4 st.tableIdx with
          | none => .error .indexError
          | some t => .ok ⟨st.tableIdx, rowIdxOf raw, setRow st.data t (rowIdxOf raw) vs⟩
      | .badRow => .error .decodeError
      | .other => .ok st := by
  unfold processLine processStripped classifyLine rowValsOf rowIdxOf rowLabelOf
  by_cases h1 : pstrip raw = []
  · rw [if_pos h1, if_pos h1]
  · rw [if_neg h1, if_neg h1]
    by_cases h2 : pstrip raw ∈ TABLE_NAMES
    · rw [if_pos h2, if_pos h2]
    · rw [if_neg h2, if_neg h2]
      by_cases h3 : ((pstr "No warming").isPrefixOf (pstrip raw)
          || [('\t' : Char)].isPrefixOf (pstrip raw)) = true
      · rw [if_pos h3, if_pos h3]
      · rw [if_neg h3, if_neg h3]
        by_cases h4 : 6 ≤ (psplitTab (pstrip raw)).length ∧
            (psplitTab (pstrip raw)).headD [] ∈ ROW_LABELS
        · rw [if_pos h4, if_pos h4]
          cases hm : mapOpt pf (rowFieldsOf (psplitTab (pstrip raw))) <;> rfl
        · rw [if_neg h4, if_neg h4]

theorem processLine_neutral {α : Type} (pf : PyStr → Option α)
    (st : RState α) (raw : PyStr) (h : isNeutralLine pf raw = true) :
    processLine pf st raw = .ok st := by
  rw [processLine_eq_dispatch]
  unfold isNeutralLine at h
  cases hc : classifyLine pf raw <;> rw [hc] at h <;> simp_all

theorem processLine_header {α : Type} (pf : PyStr → Option α)
    (st : RState α) (raw : PyStr) (h : classifyLine pf raw = .header) :
    processLine pf st raw = .ok ⟨st.tableIdx + 1, 0, st.data⟩ := by
  rw [processLine_eq_dispatch, h]

theorem processLine_badRow {α : Type} (pf : PyStr → Option α)
    (st : RState α) (raw : PyStr) (h : classifyLine pf raw = .badRow) :
    processLine pf st raw = .error .decodeError := by
  rw [processLine_eq_dispatch, h]

theorem classify_goodRow_vals {α : Type} (pf : PyStr → Option α)
    (raw : PyStr) (h : classifyLine pf raw = .goodRow) :
    ∃ vs, rowValsOf pf raw = some vs ∧ 6 ≤ (psplitTab (pstrip raw)).length := by
  unfold classifyLine at h
  unfold rowValsOf
  by_cases h1 : pstrip raw = []
  · rw [if_pos h1] at h; cases h
  · rw [if_neg h1] at h
    by_cases h2 : pstrip raw ∈ TABLE_NAMES
    · rw [if_pos h2] at h; cases h
    · rw [if_neg h2] at h
      by_cases h3 : ((pstr "No warming").isPrefixOf (pstrip raw)
          || [('\t' : Char)].isPrefixOf (pstrip raw)) = true
      · rw [if_pos h3] at h; cases h
      · rw [if_neg h3] at h
        by_cases h4 : 6 ≤ (psplitTab (pstrip raw)).length ∧
            (psplitTab (pstrip raw)).headD [] ∈ ROW_LABELS
        · rw [if_pos h4] at h
          cases hm : mapOpt pf (rowFieldsOf (psplitTab (pstrip raw))) <;>
            rw [hm] at h
          · cases h
          · exact ⟨_, rfl, h4.1⟩
        · rw [if_neg h4] at h; cases h

theorem processLine_goodRow {α : Type} (pf : PyStr → Option α)
    (st : RState α) (raw : PyStr) (vs : List α)
    (h : classifyLine pf raw = .goodRow) (hv : rowValsOf pf raw = some vs) :
    processLine pf st raw =
      match npIdx4 st.tableIdx with
      | none => .error .indexError
      | some t => .ok ⟨st.tableIdx, rowIdxOf raw, setRow st.data t (rowIdxOf raw) vs⟩ := by
  rw [processLine_eq_dispatch, h, hv]

theorem mapOpt_length {α : Type} (pf : PyStr → Option α) :
    ∀ (l : List PyStr) (vs : List α), mapOpt pf l = some vs → vs.length = l.length := by
  intro l
  induction l with
  | nil => intro vs h; simp only [mapOpt] at h; cases h; rfl
  | cons s ss ih =>
    intro vs h
    simp only [mapOpt] at h
    cases hs : pf s <;> rw [hs] at h
    · cases h
    · cases hm : mapOpt pf ss <;> rw [hm] at h
      · cases h
      · cases h
        simp [ih _ hm]

theorem npIdx4_neg_one : npIdx4 (-1) = some 3 := by decide

theorem npIdx4_some_of_bounds (i : Int) (h1 : -1 ≤ i) (h2 : i ≤ 3) :
    ∃ k, npIdx4 i = some k ∧ k < 4 := by
  unfold npIdx4
  by_cases h : 0 ≤ i ∧ i < 4
  · refine ⟨i.toNat, by rw [if_pos h], ?_⟩
    omega
  · have hi : i = -1 := by omega
    subst hi
    exact ⟨3, by decide, by omega⟩

theorem processLine_obs {α : Type} (pf : PyStr → Option α)
    (st₁ st₂ : RState α) (l : PyStr)
    (ht : st₁.tableIdx = st₂.tableIdx) (hd : st₁.data = st₂.data) :
    observe (processLine pf st₁ l) = observe (processLine pf st₂ l) := by
  obtain ⟨t₁, r₁, d₁⟩ := st₁
  obtain ⟨t₂, r₂, d₂⟩ := st₂
  have ht2 : t₁ = t₂ := ht
  have hd2 : d₁ = d₂ := hd
  subst ht2; subst hd2
  rw [processLine_eq_dispatch, processLine_eq_dispatch]
  cases classifyLine pf l
  case goodRow =>
    cases rowValsOf pf l
    · rfl
    · cases npIdx4 t₁ <;> rfl
  all_goals rfl

theorem runLines_obs {α : Type} (pf : PyStr → Option α) :
    ∀ (ls : List PyStr) (st₁ st₂ : RState α),
      st₁.tableIdx = st₂.tableIdx → st₁.data = st₂.data →
      observe (runLines pf st₁ ls) = observe (runLines pf st₂ ls) := by
  intro ls
  induction ls with
  | nil => intro st₁ st₂ ht hd; simp [runLines, observe, Except.map, ht, hd]
  | cons x xs ih =>
    intro st₁ st₂ ht hd
    have hobs := processLine_obs pf st₁ st₂ x ht hd
    simp only [runLines]
    cases hp1 : processLine pf st₁ x <;> cases hp2 : processLine pf st₂ x <;>
      rw [hp1, hp2] at hobs
    · exact hobs
    · exact Except.noConfusion hobs
    · exact Except.noConfusion hobs
    · have h12 := Except.ok.inj hobs
      exact ih _ _ (congrArg Prod.fst h12) (congrArg Prod.snd h12)

theorem setRow_comm {α : Type} (d : Table α) (t r₁ r₂ : Nat)
    (v₁ v₂ : List α) (h : r₁ ≠ r₂) :
    setRow (setRow d t r₁ v₁) t r₂ v₂ = setRow (setRow d t r₂ v₂) t r₁ v₁ := by
  unfold setRow
  by_cases ht : t < d.length
  · have hg : ∀ (L : List (List α)), ((d.set t L).getD t []) = L := by
      intro L
      rw [List.getD_eq_getElem?_getD, List.getElem?_set_self (by simpa using ht)]
      rfl
    rw [hg, hg, List.set_set, List.set_set, List.set_comm _ _ _ h]
  · have hlen : d.length ≤ t := by omega
    have hset : ∀ (L : List (List α)), d.set t L = d :=
      fun L => List.set_eq_of_length_le hlen
    simp only [hset]

theorem runLines_rowPerm {α : Type} (pf : PyStr → Option α)
    {l₁ l₂ : List PyStr} (h : RowPerm pf l₁ l₂) :
    ∀ st : RState α, observe (runLines pf st l₁) = observe (runLines pf st l₂) := by
  induction h with
  | nil => intro st; rfl
  | cons x hperm ih =>
    intro st
    simp only [runLines]
    cases hp : processLine pf st x
    · rfl
    · exact ih _
  | swapRows x y hgx hgy hne =>
    intro st
    obtain ⟨vsx, hvx, hlx⟩ := classify_goodRow_vals pf x hgx
    obtain ⟨vsy, hvy, hly⟩ := classify_goodRow_vals pf y hgy
    simp only [runLines]
    rw [processLine_goodRow pf st y vsy hgy hvy,
        processLine_goodRow pf st x vsx hgx hvx]
    cases hn : npIdx4 st.tableIdx
    · rfl
    · case some t =>
      simp only [runLines]
      rw [processLine_goodRow pf _ x vsx hgx hvx,
          processLine_goodRow pf _ y vsy hgy hvy]
      simp only [hn]
      exact runLines_obs pf _ _ _ rfl (setRow_comm _ _ _ _ _ _ (Ne.symm hne))
  | swapNeutral x y hy =>
    intro st
    simp only [runLines, processLine_neutral pf st y hy]
    cases hp : processLine pf st x
    · rfl
    · case ok st' =>
      simp only [runLines, processLine_neutral pf st' y hy]
  | symm hperm ih => intro st; exact (ih st).symm
  | trans h12 h23 ih12 ih23 => intro st; exact (ih12 st).trans (ih23 st)

theorem classify_header_iff {α : Type} (pf : PyStr → Option α) (raw : PyStr) :
    classifyLine pf raw = .header ↔ isHeaderLine raw = true := by
  have hne : ∀ s ∈ TABLE_NAMES, s ≠ [] := by decide
  unfold classifyLine isHeaderLine
  by_cases h1 : pstrip raw = []
  · rw [if_pos h1]
    constructor
    · intro h; cases h
    · intro h
      exact absurd h1 (hne _ (of_decide_eq_true h))
  · rw [if_neg h1]
    by_cases h2 : pstrip raw ∈ TABLE_NAMES
    · rw [if_pos h2]
      simp [h2]
    · rw [if_neg h2]
      constructor
      · intro h
        by_cases h3 : ((pstr "No warming").isPrefixOf (pstrip raw)
            || [('\t' : Char)].isPrefixOf (pstrip raw)) = true
        · rw [if_pos h3] at h; cases h
        · rw [if_neg h3] at h
          by_cases h4 : 6 ≤ (psplitTab (pstrip raw)).length ∧
              (psplitTab (pstrip raw)).headD [] ∈ ROW_LABELS
          · rw [if_pos h4] at h
            cases hm : mapOpt pf (rowFieldsOf (psplitTab (pstrip raw))) <;>
              rw [hm] at h <;> cases h
          · rw [if_neg h4] at h; cases h
      · intro h
        exact absurd (of_decide_eq_true h) h2

theorem classify_neutral_of_not {α : Type} (pf : PyStr → Option α) (raw : PyStr)
    (h1 : classifyLine pf raw ≠ .header) (h2 : classifyLine pf raw ≠ .goodRow)
    (h3 : classifyLine pf raw ≠ .badRow) : isNeutralLine pf raw = true := by
  unfold isNeutralLine
  cases hc : classifyLine pf raw <;> simp_all

theorem countHeaders_cons (x : PyStr) (ls : List PyStr) :
    countHeaders (x :: ls) =
      countHeaders ls + if isHeaderLine x = true then 1 else 0 := by
  unfold countHeaders
  rw [List.countP_cons]

/-- Scanning from a state reachable with at most `3 - tableIdx` headers left
cannot raise `indexError`: the scan fails with `decodeError` exactly when a
recognized data row with an undecodable field occurs, and succeeds
otherwise. -/
theorem runLines_decode {α : Type} (pf : PyStr → Option α) :
    ∀ (ls : List PyStr) (st : RState α), -1 ≤ st.tableIdx →
      st.tableIdx + (countHeaders ls : Int) ≤ 3 →
      ((∃ l ∈ ls, classifyLine pf l = .badRow) →
        runLines pf st ls = .error .decodeError) ∧
      ((∀ l ∈ ls, classifyLine pf l ≠ .badRow) →
        ∃ st', runLines pf st ls = .ok st') := by
  intro ls
  induction ls with
  | nil =>
    intro st h1 h2
    refine ⟨fun h => by simp at h, fun _ => ⟨st, rfl⟩⟩
  | cons x xs ih =>
    intro st h1 h2
    rw [countHeaders_cons] at h2
    by_cases hb : classifyLine pf x = .badRow
    · refine ⟨fun _ => ?_, fun hno => absurd hb (hno x (by simp))⟩
      simp only [runLines, processLine_badRow pf st x hb]
    · have hcount : countHeaders (x :: xs) = countHeaders xs +
          (if isHeaderLine x = true then 1 else 0) := countHeaders_cons x xs
      by_cases hh : classifyLine pf x = .header
      · have hhl : isHeaderLine x = true := (classify_header_iff pf x).mp hh
        rw [hhl, if_pos rfl] at h2
        push_cast at h2
        have hstep := processLine_header pf st x hh
        have := ih ⟨st.tableIdx + 1, 0, st.data⟩ (by simp; omega) (by simp; omega)
        refine ⟨fun hex => ?_, fun hno => ?_⟩
        · obtain ⟨l, hl, hbad⟩ := hex
          simp only [runLines, hstep]
          rw [List.mem_cons] at hl
          rcases hl with rfl | hl
          · exact absurd hbad hb
          · exact this.1 ⟨l, hl, hbad⟩
        · obtain ⟨st', hst'⟩ := this.2 (fun l hl => hno l (by simp [hl]))
          exact ⟨st', by simp only [runLines, hstep]; exact hst'⟩
      · have hhl : isHeaderLine x = false := by
          cases hx : isHeaderLine x
          · rfl
          · exact absurd ((classify_header_iff pf x).mpr hx) hh
        rw [hhl] at h2
        simp only [Bool.false_eq_true, if_false, Nat.cast_add] at h2
        by_cases hg : classifyLine pf x = .goodRow
        · obtain ⟨vs, hvs, _⟩ := classify_goodRow_vals pf x hg
          obtain ⟨k, hk, _⟩ := npIdx4_some_of_bounds st.tableIdx h1 (by omega)
          have hstep := processLine_goodRow pf st x vs hg hvs
          rw [hk] at hstep
          have := ih ⟨st.tableIdx, rowIdxOf x, setRow st.data k (rowIdxOf x) vs⟩
            (by simpa using h1) (by simpa using h2)
          refine ⟨fun hex => ?_, fun hno => ?_⟩
          · obtain ⟨l, hl, hbad⟩ := hex
            simp only [runLines, hstep]
            rw [List.mem_cons] at hl
            rcases hl with rfl | hl
            · exact absurd hbad hb
            · exact this.1 ⟨l, hl, hbad⟩
          · obtain ⟨st', hst'⟩ := this.2 (fun l hl => hno l (by simp [hl]))
            exact ⟨st', by simp only [runLines, hstep]; exact hst'⟩
        · have hneu := classify_neutral_of_not pf x hh hg hb
          have hstep := processLine_neutral pf st x hneu
          have := ih st h1 (by omega)
          refine ⟨fun hex => ?_, fun hno => ?_⟩
          · obtain ⟨l, hl, hbad⟩ := hex
            simp only [runLines, hstep]
            rw [List.mem_cons] at hl
            rcases hl with rfl | hl
            · exact absurd hbad hb
            · exact this.1 ⟨l, hl, hbad⟩
          · obtain ⟨st', hst'⟩ := this.2 (fun l hl => hno l (by simp [hl]))
            exact ⟨st', by simp only [runLines, hstep]; exact hst'⟩

theorem rowFieldsOf_length (parts : List PyStr) (h : 6 ≤ parts.length) :
    (rowFieldsOf parts).length = 5 := by
  simp only [rowFieldsOf, List.length_take, List.length_drop]
  omega

theorem zeros465_shape {α : Type} (z : α) : Shape465 (zeros465 z) := by
  refine ⟨by simp [zeros465], ?_⟩
  intro layer hmem
  simp only [zeros465, List.mem_replicate] at hmem
  rw [hmem.2]
  refine ⟨by simp, ?_⟩
  intro r hr
  simp only [List.mem_replicate] at hr
  rw [hr.2]
  simp

theorem getD_mem_of_lt {α : Type} (l : List α) (d : α) {i : Nat}
    (h : i < l.length) : l.getD i d ∈ l := by
  rw [List.getD_eq_getElem?_getD, List.getElem?_eq_getElem h]
  exact List.getElem_mem h

theorem setRow_shape {α : Type} (d : Table α) (t r : Nat) (vs : List α)
    (hd : Shape465 d) (hv : vs.length = 5) : Shape465 (setRow d t r vs) := by
  unfold setRow
  by_cases ht : t < d.length
  · constructor
    · rw [List.length_set]; exact hd.1
    · intro layer hmem
      rcases List.mem_or_eq_of_mem_set hmem with h | h
      · exact hd.2 layer h
      · subst h
        have hlayer : d.getD t [] ∈ d := getD_mem_of_lt d [] ht
        obtain ⟨hl6, hrows⟩ := hd.2 _ hlayer
        constructor
        · rw [List.length_set]; exact hl6
        · intro row hrow
          rcases List.mem_or_eq_of_mem_set hrow with h | h
          · exact hrows row h
          · subst h; exact hv
  · rw [List.set_eq_of_length_le (by omega)]
    exact hd

theorem processLine_shape {α : Type} (pf : PyStr → Option α)
    (st st' : RState α) (l : PyStr) (h : processLine pf st l = .ok st')
    (hd : Shape465 st.data) : Shape465 st'.data := by
  rw [processLine_eq_dispatch] at h
  cases hc : classifyLine pf l <;> rw [hc] at h
  case blank => cases h; exact hd
  case header => cases h; exact hd
  case colHeader => cases h; exact hd
  case other => cases h; exact hd
  case badRow => cases h
  case goodRow =>
    obtain ⟨vs, hvs, hlen⟩ := classify_goodRow_vals pf l hc
    rw [hvs] at h
    cases hn : npIdx4 st.tableIdx <;> rw [hn] at h
    · cases h
    · cases h
      exact setRow_shape _ _ _ _ hd
        ((mapOpt_length pf _ _ hvs).trans (rowFieldsOf_length _ hlen))

theorem runLines_shape {α : Type} (pf : PyStr → Option α) :
    ∀ (ls : List PyStr) (st st' : RState α),
      runLines pf st ls = .ok st' → Shape465 st.data → Shape465 st'.data := by
  intro ls
  induction ls with
  | nil =>
    intro st st' h hd
    cases h; exact hd
  | cons x xs ih =>
    intro st st' h hd
    simp only [runLines] at h
    cases hp : processLine pf st x <;> rw [hp] at h
    · cases h
    · exact ih _ _ h (processLine_shape pf _ _ _ hp hd)

theorem runLines_neutral_append {α : Type} (pf : PyStr → Option α) :
    ∀ (pre : List PyStr) (st : RState α) (rest : List PyStr),
      (∀ x ∈ pre, isNeutralLine pf x = true) →
      runLines pf st (pre ++ rest) = runLines pf st rest := by
  intro pre
  induction pre with
  | nil => intro st rest _; rfl
  | cons x xs ih =>
    intro st rest hpre
    rw [List.cons_append]
    simp only [runLines, processLine_neutral pf st x (hpre x (by simp))]
    exact ih st rest (fun y hy => hpre y (by simp [hy]))

theorem getD_map_lt {α β : Type} (f : α → β) (l : List α) (i : Nat)
    (d : α) (dd : β) (h : i < l.length) :
    (l.map f).getD i dd = f (l.getD i d) := by
  rw [List.getD_eq_getElem?_getD, List.getD_eq_getElem?_getD,
    List.getElem?_map, List.getElem?_eq_getElem h]
  rfl

theorem cell_computeGrowthRates {α : Type} [DivisionRing α] (rp : α → α → α)
    (data : Table α) (years : Nat) (i j k : Nat)
    (hi : i < data.length) (hj : j < (data.getD i []).length)
    (hk : k < ((data.getD i []).getD j []).length) :
    cell 0 (computeGrowthRates rp data years) i j k =
      rp (cell 0 data i j k / cell 0 data i 0 0) (1 / (years : α)) - 1 := by
  unfold computeGrowthRates cell
  rw [getD_map_lt _ _ _ [] _ hi, getD_map_lt _ _ _ [] _ hj,
    getD_map_lt _ _ _ 0 _ hk]

theorem computeGrowthRates_shape {α : Type} [DivisionRing α] (rp : α → α → α)
    (data : Table α) (years : Nat) (hd : Shape465 data) :
    Shape465 (computeGrowthRates rp data years) := by
  obtain ⟨h4, hlayers⟩ := hd
  refine ⟨by simpa [computeGrowthRates] using h4, ?_⟩
  intro layer hmem
  simp only [computeGrowthRates, List.mem_map] at hmem
  obtain ⟨layer0, hl0, rfl⟩ := hmem
  obtain ⟨h6, hrows⟩ := hlayers layer0 hl0
  refine ⟨by simpa using h6, ?_⟩
  intro row hrow
  simp only [List.mem_map] at hrow
  obtain ⟨row0, hr0, rfl⟩ := hrow
  simpa using hrows row0 hr0

theorem shape_layer_len {α : Type} {d : Table α} (hd : Shape465 d)
    {i : Nat} (hi : i < 4) : (d.getD i []).length = 6 := by
  have hlt : i < d.length := by rw [hd.1]; exact hi
  exact (hd.2 _ (getD_mem_of_lt d [] hlt)).1

theorem shape_row_len {α : Type} {d : Table α} (hd : Shape465 d)
    {i j : Nat} (hi : i < 4) (hj : j < 6) :
    ((d.getD i []).getD j []).length = 5 := by
  have hlt : i < d.length := by rw [hd.1]; exact hi
  obtain ⟨h6, hrows⟩ := hd.2 _ (getD_mem_of_lt d [] hlt)
  have hjlt : j < (d.getD i []).length := by rw [h6]; exact hj
  exact hrows _ (getD_mem_of_lt _ [] hjlt)

theorem draw_growthRates {α : Type} (c : DrawCmd α) (s : PlotState α) :
    (draw c s).growthRates = s.growthRates := rfl

theorem drawAll_growthRates {α : Type} (cs : List (DrawCmd α)) :
    ∀ s : PlotState α, (drawAll cs s).growthRates = s.growthRates := by
  induction cs with
  | nil => intro s; rfl
  | cons c cs ih =>
    intro s
    simp only [drawAll, List.foldl_cons]
    exact ih (draw c s)

theorem adjustFrom_chain {α : Type} [LinearOrderedField α] :
    ∀ (l : List α) (prev : α),
      List.Chain (fun a b => a + 1 / 4 ≤ b) prev (adjustFrom prev l) := by
  intro l
  induction l with
  | nil => intro prev; exact List.Chain.nil
  | cons y ys ih =>
    intro prev
    simp only [adjustFrom]
    by_cases h : y - prev < 1 / 4
    · rw [if_pos h]
      exact List.Chain.cons le_rfl (ih _)
    · rw [if_neg h]
      exact List.Chain.cons (by linarith) (ih _)

theorem adjustFrom_length {α : Type} [LinearOrderedField α] :
    ∀ (l : List α) (prev : α), (adjustFrom prev l).length = l.length := by
  intro l
  induction l with
  | nil => intro prev; rfl
  | cons y ys ih => intro prev; simp only [adjustFrom, List.length_cons, ih]

theorem adjustPositions_chain {α : Type} [LinearOrderedField α] (ys : List α) :
    List.Chain' (fun a b => a + 1 / 4 ≤ b) (adjustPositions ys) := by
  unfold adjustPositions
  cases hs : List.insertionSort (· ≤ ·) ys with
  | nil => exact List.chain'_nil
  | cons y rest => exact adjustFrom_chain rest y

theorem adjustPositions_length {α : Type} [LinearOrderedField α] (ys : List α) :
    (adjustPositions ys).length = ys.length := by
  unfold adjustPositions
  cases hs : List.insertionSort (· ≤ ·) ys with
  | nil =>
    have := List.length_insertionSort (· ≤ ·) ys
    rw [hs] at this
    simp only [List.length_nil] at this
    simp [this.symm]
  | cons y rest =>
    have := List.length_insertionSort (· ≤ ·) ys
    rw [hs] at this
    simp only [List.length_cons, adjustFrom_length] at this ⊢
    exact this

theorem adjustPositions_sorted {α : Type} [LinearOrderedField α] (ys : List α) :
    List.Sorted (· < ·) (adjustPositions ys) := by
  haveI : IsTrans α (fun a b => a + 1 / 4 ≤ b) :=
    ⟨fun a b c hab hbc =>
      show a + 1 / 4 ≤ c by
        have h1 : a + 1 / 4 ≤ b := hab
        have h2 : b + 1 / 4 ≤ c := hbc
        linarith⟩
  have hp := (List.chain'_iff_pairwise).mp (adjustPositions_chain ys)
  refine hp.imp (fun h => ?_)
  linarith

/-- C1: for every (4,6,5) input table and year count `n > 0`, the
growth-rate transform yields a table of the same (4,6,5) shape whose cell
`[i,j,k]` is `(data[i,j,k] / data[i,0,0]) ^ (1/n) - 1`, the baseline being
the (No growth, No warming) cell of layer `i`; the year count defaults
to 80. -/
theorem claim_c1_growth_rate_formula (data : Table ℝ) (years : Nat)
    (hshape : Shape465 data) (_hyears : 0 < years) :
    Shape465 (computeGrowthRates (fun x y : ℝ => x ^ y) data years) ∧
    computeGrowthRates (fun x y : ℝ => x ^ y) data =
      computeGrowthRates (fun x y : ℝ => x ^ y) data 80 ∧
    ∀ i j k, i < 4 → j < 6 → k < 5 →
      cell 0 (computeGrowthRates (fun x y : ℝ => x ^ y) data years) i j k =
        (cell 0 data i j k / cell 0 data i 0 0) ^ ((1 : ℝ) / (years : ℝ)) - 1 := by
  refine ⟨computeGrowthRates_shape _ data years hshape, rfl, ?_⟩
  intro i j k hi hj hk
  exact cell_computeGrowthRates (fun x y : ℝ => x ^ y) data years i j k
    (by rw [hshape.1]; exact hi)
    (by rw [shape_layer_len hshape hi]; exact hj)
    (by rw [shape_row_len hshape hi hj]; exact hk)

/-- Witness for C1 at the all-ones table and the default 80 years. -/
theorem claim_c1_growth_rate_formula_witness :
    Shape465 (zeros465 (1 : ℝ)) ∧ 0 < 80 ∧
    (Shape465 (computeGrowthRates (fun x y : ℝ => x ^ y) (zeros465 1) 80) ∧
     computeGrowthRates (fun x y : ℝ => x ^ y) (zeros465 1) =
       computeGrowthRates (fun x y : ℝ => x ^ y) (zeros465 1) 80 ∧
     ∀ i j k, i < 4 → j < 6 → k < 5 →
       cell 0 (computeGrowthRates (fun x y : ℝ => x ^ y) (zeros465 1) 80) i j k =
         (cell 0 (zeros465 1) i j k / cell 0 (zeros465 1) i 0 0) ^
           ((1 : ℝ) / ((80 : Nat) : ℝ)) - 1) :=
  ⟨zeros465_shape 1, by decide,
    claim_c1_growth_rate_formula (zeros465 1) 80 (zeros465_shape 1) (by decide)⟩

/-- C4: round-trip inversion: with positive baseline `b` and positive cell
value, compounding the computed rate for `n` years carries the baseline
back to the cell value: `b * (1 + rate)^n = value` (over `ℝ`). -/
theorem claim_c4_roundtrip (data : Table ℝ) (years i j k : Nat)
    (hshape : Shape465 data) (hi : i < 4) (hj : j < 6) (hk : k < 5)
    (hyears : 0 < years) (hb : 0 < cell 0 data i 0 0)
    (hv : 0 < cell 0 data i j k) :
    cell 0 data i 0 0 *
      (1 + cell 0 (computeGrowthRates (fun x y : ℝ => x ^ y) data years) i j k) ^
        years = cell 0 data i j k := by
  have hcell : cell 0 (computeGrowthRates (fun x y : ℝ => x ^ y) data years) i j k =
      (cell 0 data i j k / cell 0 data i 0 0) ^ ((1 : ℝ) / (years : ℝ)) - 1 :=
    cell_computeGrowthRates (fun x y : ℝ => x ^ y) data years i j k
      (by rw [hshape.1]; exact hi)
      (by rw [shape_layer_len hshape hi]; exact hj)
      (by rw [shape_row_len hshape hi hj]; exact hk)
  rw [hcell]
  have hx : (0 : ℝ) < cell 0 data i j k / cell 0 data i 0 0 := div_pos hv hb
  have hn : (years : ℝ) ≠ 0 := Nat.cast_ne_zero.mpr hyears.ne'
  have hone : 1 + ((cell 0 data i j k / cell 0 data i 0 0) ^
      ((1 : ℝ) / (years : ℝ)) - 1) =
      (cell 0 data i j k / cell 0 data i 0 0) ^ ((1 : ℝ) / (years : ℝ)) := by
    ring
  rw [hone,
    ← Real.rpow_natCast
      ((cell 0 data i j k / cell 0 data i 0 0) ^ ((1 : ℝ) / (years : ℝ))) years,
    ← Real.rpow_mul hx.le, one_div, inv_mul_cancel₀ hn, Real.rpow_one,
    mul_comm, div_mul_cancel₀ _ hb.ne']

/-- Witness for C4 at the all-ones table, `n = 80`, cell `(0,1,1)`. -/
theorem claim_c4_roundtrip_witness :
    Shape465 (zeros465 (1 : ℝ)) ∧ 0 < 80 ∧
    0 < cell 0 (zeros465 (1 : ℝ)) 0 0 0 ∧ 0 < cell 0 (zeros465 (1 : ℝ)) 0 1 1 ∧
    cell 0 (zeros465 (1 : ℝ)) 0 0 0 *
      (1 + cell 0 (computeGrowthRates (fun x y : ℝ => x ^ y) (zeros465 1) 80) 0 1 1) ^
        80 = cell 0 (zeros465 (1 : ℝ)) 0 1 1 := by
  have hb : (0 : ℝ) < cell 0 (zeros465 (1 : ℝ)) 0 0 0 := by
    rw [show cell (0 : ℝ) (zeros465 (1 : ℝ)) 0 0 0 = 1 from rfl]; norm_num
  have hv : (0 : ℝ) < cell 0 (zeros465 (1 : ℝ)) 0 1 1 := by
    rw [show cell (0 : ℝ) (zeros465 (1 : ℝ)) 0 1 1 = 1 from rfl]; norm_num
  exact ⟨zeros465_shape 1, by decide, hb, hv,
    claim_c4_roundtrip (zeros465 1) 80 0 1 1 (zeros465_shape 1)
      (by decide) (by decide) (by decide) (by decide) hb hv⟩

/-- C5: baseline identity: when every baseline cell `[i,0,0]` is positive,
the transformed table has `0` at `[i,0,0]` for every income group `i`
(the normalized ratio there is exactly `1`). -/
theorem claim_c5_baseline_identity (data : Table ℝ) (years : Nat)
    (hshape : Shape465 data)
    (hbase : ∀ i, i < 4 → 0 < cell 0 data i 0 0) :
    ∀ i, i < 4 →
      cell 0 (computeGrowthRates (fun x y : ℝ => x ^ y) data years) i 0 0 = 0 := by
  intro i hi
  have hcell : cell 0 (computeGrowthRates (fun x y : ℝ => x ^ y) data years) i 0 0 =
      (cell 0 data i 0 0 / cell 0 data i 0 0) ^ ((1 : ℝ) / (years : ℝ)) - 1 :=
    cell_computeGrowthRates (fun x y : ℝ => x ^ y) data years i 0 0
      (by rw [hshape.1]; exact hi)
      (by rw [shape_layer_len hshape hi]; norm_num)
      (by rw [shape_row_len hshape hi (by norm_num)]; norm_num)
  rw [hcell, div_self (hbase i hi).ne', Real.one_rpow, sub_self]

/-- Witness for C5 at the all-ones table and the default 80 years. -/
theorem claim_c5_baseline_identity_witness :
    Shape465 (zeros465 (1 : ℝ)) ∧
    (∀ i, i < 4 → 0 < cell 0 (zeros465 (1 : ℝ)) i 0 0) ∧
    ∀ i, i < 4 →
      cell 0 (computeGrowthRates (fun x y : ℝ => x ^ y) (zeros465 1) 80) i 0 0 = 0 := by
  have hbase : ∀ i, i < 4 → (0 : ℝ) < cell 0 (zeros465 (1 : ℝ)) i 0 0 := by
    intro i hi
    interval_cases i
    · rw [show cell (0 : ℝ) (zeros465 (1 : ℝ)) 0 0 0 = 1 from rfl]; norm_num
    · rw [show cell (0 : ℝ) (zeros465 (1 : ℝ)) 1 0 0 = 1 from rfl]; norm_num
    · rw [show cell (0 : ℝ) (zeros465 (1 : ℝ)) 2 0 0 = 1 from rfl]; norm_num
    · rw [show cell (0 : ℝ) (zeros465 (1 : ℝ)) 3 0 0 = 1 from rfl]; norm_num
  exact ⟨zeros465_shape 1, hbase,
    claim_c5_baseline_identity (zeros465 1) 80 (zeros465_shape 1) hbase⟩

/-- C2 counterexample: `fileC2` contains a recognized data row with a
non-numeric field, yet the parser does not raise a decode error — after
the fifth group-header line the preceding well-formed row raises an
`IndexError` first, refuting the claimed equivalence. -/
theorem claim_c2_decode_error_counterexample :
    (∃ l ∈ fileC2, classifyLine parseInt l = .badRow) ∧
    readFigureData parseInt (0 : ℤ) fileC2 = .error .indexError ∧
    readFigureData parseInt (0 : ℤ) fileC2 ≠ .error .decodeError := by decide

/-- C2 amended: for files with at most four group-header lines, the parse
fails with a decode error exactly when some recognized data row has an
undecodable value field, and succeeds otherwise (so every other line
causes no error).  Files with five or more group headers can instead
raise an index error, as the counterexample shows. -/
theorem claim_c2_decode_error_amended {α : Type} (pf : PyStr → Option α)
    (z : α) (lines : List PyStr) (hH : countHeaders lines ≤ 4) :
    (readFigureData pf z lines = .error .decodeError ↔
      ∃ l ∈ lines, classifyLine pf l = .badRow) ∧
    ((∀ l ∈ lines, classifyLine pf l ≠ .badRow) →
      ∃ t, readFigureData pf z lines = .ok t) := by
  have hmain := runLines_decode pf lines ⟨-1, 0, zeros465 z⟩
    (by norm_num) (by simp only []; omega)
  constructor
  · constructor
    · intro herr
      by_contra hno
      push_neg at hno
      obtain ⟨st', hst'⟩ := hmain.2 hno
      rw [readFigureData, hst'] at herr
      cases herr
    · intro hex
      rw [readFigureData, hmain.1 hex]
      rfl
  · intro hno
    obtain ⟨st', hst'⟩ := hmain.2 hno
    exact ⟨st'.data, by rw [readFigureData, hst']; rfl⟩

/-- Witness for the amended C2 at a one-header file with a bad row. -/
theorem claim_c2_decode_error_amended_witness :
    countHeaders fileC2W ≤ 4 ∧
    ((readFigureData parseInt (0 : ℤ) fileC2W = .error .decodeError ↔
      ∃ l ∈ fileC2W, classifyLine parseInt l = .badRow) ∧
    ((∀ l ∈ fileC2W, classifyLine parseInt l ≠ .badRow) →
      ∃ t, readFigureData parseInt (0 : ℤ) fileC2W = .ok t)) :=
  ⟨by decide, claim_c2_decode_error_amended parseInt 0 fileC2W (by decide)⟩

/-- C3 counterexample: a line made of a leading tab followed by a
well-formed data row is not skipped: it writes its five values into the
table, refuting "a leading-tab line contributes nothing". -/
theorem claim_c3_tab_skip_counterexample :
    readFigureData parseInt (0 : ℤ) fileC3 =
      .ok (setRow (zeros465 0) 0 0 [1, 2, 3, 4, 5]) ∧
    setRow (zeros465 (0 : ℤ)) 0 0 [1, 2, 3, 4, 5] ≠ zeros465 0 := by decide

/-- C3 amended: lines are stripped before classification, so a leading tab
is removed and the line is processed exactly as its stripped content (the
dead `startswith('\t')` check never fires); a line whose stripped content
begins with `No warming` is skipped. -/
theorem claim_c3_tab_skip_amended {α : Type} (pf : PyStr → Option α)
    (st : RState α) (l : PyStr) :
    processLine pf st ('\t' :: l) = processLine pf st l ∧
    ((pstr "No warming").isPrefixOf (pstrip l) = true →
      processLine pf st l = .ok st) := by
  constructor
  · unfold processLine
    have ht : isPySpace '\t' = true := rfl
    have hstrip : pstrip ('\t' :: l) = pstrip l := by
      simp [pstrip, List.dropWhile_cons, ht]
    rw [hstrip]
  · intro hpre
    have hne : pstrip l ≠ [] := by
      intro h0
      rw [h0] at hpre
      exact absurd hpre (by decide)
    have hnotin : pstrip l ∉ TABLE_NAMES := by
      intro hmem
      have hf : ∀ s ∈ TABLE_NAMES, (pstr "No warming").isPrefixOf s = false := by
        decide
      rw [hf _ hmem] at hpre
      cases hpre
    have hc : classifyLine pf l = .colHeader := by
      unfold classifyLine
      rw [if_neg hne, if_neg hnotin, if_pos (by rw [hpre, Bool.true_or])]
    rw [processLine_eq_dispatch, hc]

/-- Witness for the amended C3 on a concrete column-header line. -/
theorem claim_c3_tab_skip_amended_witness :
    (processLine parseInt (⟨-1, 0, zeros465 (0 : ℤ)⟩ : RState ℤ)
        ('\t' :: pstr "No warming\t2.6") =
      processLine parseInt ⟨-1, 0, zeros465 0⟩ (pstr "No warming\t2.6")) ∧
    processLine parseInt (⟨-1, 0, zeros465 (0 : ℤ)⟩ : RState ℤ)
        (pstr "No warming\t2.6") = .ok ⟨-1, 0, zeros465 0⟩ :=
  ⟨(claim_c3_tab_skip_amended parseInt ⟨-1, 0, zeros465 0⟩ (pstr "No warming\t2.6")).1,
   (claim_c3_tab_skip_amended parseInt ⟨-1, 0, zeros465 0⟩ (pstr "No warming\t2.6")).2
     (by decide)⟩

/-- C6 counterexample: swapping two well-formed rows that carry the same
label within one section changes the parsed table (the later row wins),
refuting the unrestricted permutation claim. -/
theorem claim_c6_row_order_counterexample :
    classifyLine parseInt (pstr "No growth\t1\t1\t1\t1\t1") = .goodRow ∧
    classifyLine parseInt (pstr "No growth\t2\t2\t2\t2\t2") = .goodRow ∧
    readFigureData parseInt (0 : ℤ) fileC6a ≠
      readFigureData parseInt (0 : ℤ) fileC6b := by decide

/-- C6 amended: permuting recognized data rows within a group section
leaves the parsed table unchanged, provided the rows carry distinct row
labels; `RowPerm` generates exactly such reorderings (swaps of adjacent
recognized rows with distinct destination rows, moves across ignored
lines, closed under context, symmetry and composition). -/
theorem claim_c6_row_order_amended {α : Type} (pf : PyStr → Option α)
    (z : α) {l₁ l₂ : List PyStr} (h : RowPerm pf l₁ l₂) :
    readFigureData pf z l₁ = readFigureData pf z l₂ := by
  have hobs := runLines_rowPerm pf h ⟨-1, 0, zeros465 z⟩
  unfold readFigureData
  cases r1 : runLines pf ⟨-1, 0, zeros465 z⟩ l₁ <;>
    cases r2 : runLines pf ⟨-1, 0, zeros465 z⟩ l₂ <;> rw [r1, r2] at hobs
  · rw [Except.error.inj hobs]
  · exact Except.noConfusion hobs
  · exact Except.noConfusion hobs
  · rename_i st1 st2
    have h12 := Except.ok.inj hobs
    have hdata : st1.data = st2.data := congrArg Prod.snd h12
    simp only [Except.map]
    rw [hdata]

/-- Witness for the amended C6: swapping the `SSP1` and `SSP2` rows of a
section yields the same table. -/
theorem claim_c6_row_order_amended_witness :
    readFigureData parseInt (0 : ℤ) fileC6w1 =
      readFigureData parseInt (0 : ℤ) fileC6w2 :=
  claim_c6_row_order_amended parseInt 0
    (RowPerm.cons (pstr "All-country average")
      (RowPerm.swapRows (pstr "SSP2\t6\t7\t8\t9\t10") (pstr "SSP1\t1\t2\t3\t4\t5")
        (by decide) (by decide) (by decide)))

/-- C7: whenever the parser succeeds, the resulting table has shape
exactly (4, 6, 5), however many data rows the file contains. -/
theorem claim_c7_shape_invariant {α : Type} (pf : PyStr → Option α)
    (z : α) (lines : List PyStr) (t : Table α)
    (h : readFigureData pf z lines = .ok t) : Shape465 t := by
  unfold readFigureData at h
  cases r : runLines pf ⟨-1, 0, zeros465 z⟩ lines <;> rw [r] at h
  · cases h
  · case ok st' =>
    have ht : t = st'.data := (Except.ok.inj h).symm
    rw [ht]
    exact runLines_shape pf lines _ st' r (zeros465_shape z)

/-- Witness for C7 on a concrete two-line file. -/
theorem claim_c7_shape_invariant_witness :
    readFigureData parseInt (0 : ℤ) fileC7 = .ok tableC7 ∧ Shape465 tableC7 :=
  ⟨by decide, claim_c7_shape_invariant parseInt 0 fileC7 tableC7 (by decide)⟩

/-- C8: the greedy de-overlap pass returns as many positions as it is
given, in strictly ascending order with every adjacent pair separated by
at least `0.25`; on the candidate positions `[0.1, 0.15, 0.9]` it returns
`[0.1, 0.35, 0.9]`. -/
theorem claim_c8_label_deoverlap :
    (∀ ys : List ℚ,
      (adjustPositions ys).length = ys.length ∧
      List.Chain' (fun a b => a + 1 / 4 ≤ b) (adjustPositions ys) ∧
      List.Sorted (· < ·) (adjustPositions ys)) ∧
    adjustPositions [(1 : ℚ) / 10, 3 / 20, 9 / 10] = [1 / 10, 7 / 20, 9 / 10] :=
  ⟨fun ys => ⟨adjustPositions_length ys, adjustPositions_chain ys,
      adjustPositions_sorted ys⟩,
   by norm_num [adjustPositions, List.insertionSort, List.orderedInsert, adjustFrom]⟩

/-- C9: the panel renderer never mutates its input: the growth-rate table
carried by the plot state after all drawing calls is the table passed in,
for either label style. -/
theorem claim_c9_no_mutation {α : Type} [LinearOrderedField α]
    (g : Table α) (style : LabelStyle) :
    (createPanelPlot g style).growthRates = g := by
  unfold createPanelPlot
  exact drawAll_growthRates _ _

/-- Witness for C9 at a concrete rational table and the numerical style. -/
theorem claim_c9_no_mutation_witness :
    (createPanelPlot (zeros465 (1 : ℚ)) LabelStyle.numerical).growthRates =
      zeros465 1 :=
  claim_c9_no_mutation (zeros465 1) LabelStyle.numerical

/-- C10 (implicit behavior): a recognized data row that appears before any
group-header line is processed without error with `table_idx = -1`, and
numpy's negative indexing writes it into the last layer (index 3, the
Low-income group), overwriting that group's row for the row's label. -/
theorem claim_c10_preheader_write {α : Type} (pf : PyStr → Option α)
    (z : α) (pre : List PyStr) (l : PyStr) (post : List PyStr)
    (hpre : ∀ x ∈ pre, isNeutralLine pf x = true)
    (hl : classifyLine pf l = .goodRow) :
    ∃ vs, rowValsOf pf l = some vs ∧
      runLines pf ⟨-1, 0, zeros465 z⟩ (pre ++ l :: post) =
        runLines pf ⟨-1, rowIdxOf l, setRow (zeros465 z) 3 (rowIdxOf l) vs⟩ post ∧
      readFigureData pf z (pre ++ [l]) =
        .ok (setRow (zeros465 z) 3 (rowIdxOf l) vs) := by
  obtain ⟨vs, hvs, _⟩ := classify_goodRow_vals pf l hl
  have hgen : ∀ post' : List PyStr,
      runLines pf ⟨-1, 0, zeros465 z⟩ (pre ++ l :: post') =
        runLines pf ⟨-1, rowIdxOf l, setRow (zeros465 z) 3 (rowIdxOf l) vs⟩ post' := by
    intro post'
    rw [runLines_neutral_append pf pre _ _ hpre]
    simp only [runLines]
    rw [processLine_goodRow pf _ l vs hl hvs]
    norm_num [npIdx4_neg_one]
  refine ⟨vs, hvs, hgen post, ?_⟩
  rw [readFigureData, hgen []]
  rfl

/-- Witness for C10 on a concrete file whose data row precedes all
headers: the values land in layer 3. -/
theorem claim_c10_preheader_write_witness :
    readFigureData parseInt (0 : ℤ) fileC10 =
      .ok (setRow (zeros465 0) 3 0 [1, 2, 3, 4, 5]) := by
  obtain ⟨vs, hvs, _, hread⟩ := claim_c10_preheader_write parseInt (0 : ℤ)
    [pstr "", pstr "garbage line"] (pstr "No growth\t1\t2\t3\t4\t5") []
    (by decide) (by decide)
  have hvs5 : vs = [1, 2, 3, 4, 5] := by
    rw [show rowValsOf parseInt (pstr "No growth\t1\t2\t3\t4\t5") =
        some [(1 : ℤ), 2, 3, 4, 5] from by decide] at hvs
    exact (Option.some.inj hvs).symm
  have hidx : rowIdxOf (pstr "No growth\t1\t2\t3\t4\t5") = 0 := by decide
  rw [show fileC10 = [pstr "", pstr "garbage line"] ++
      [pstr "No growth\t1\t2\t3\t4\t5"] from rfl, hread, hvs5, hidx]
